import Mathlib

/-!
Verification development for the DASCDiscord repository (a Dune Awakening
resource-calculator Discord bot, web app and CLI scripts).

Numeric quantities that the Python code holds in floats are modelled as exact
rationals (`ℚ`); `math.floor` is `Int.floor`, Python float floor-division
`//` is `Int.floor` of the quotient, and Python's banker's `round` is
modelled by `roundHalfEven`.  Functions that can raise `ValueError` return
`Option` (`none` = raised).  The run store (a JSON dict) is an association
list with unique keys, and each mutating endpoint is a function from the
store to the store plus an outcome tag.
-/

namespace DASC

/-! ## Game constants (src/bot.py lines 45-66, src/web/app.py lines 12-24) -/

def SAND_PER_BATCH : ℚ := 10000
def MELANGE_PER_BATCH : ℚ := 200
def WATER_PER_BATCH : ℚ := 75000
def SECONDS_PER_BATCH : ℚ := 2700

def STRAV_MASS_PER_FIBER : ℚ := 3
def WATER_PER_FIBER : ℚ := 100
def SEC_PER_FIBER : ℚ := 10

def TI_PER_PLASTANIUM_LARGE : ℚ := 4
def FIBER_PER_PLASTANIUM : ℚ := 1
def WATER_PER_PLASTANIUM : ℚ := 1250
def SEC_PER_PLASTANIUM_LARGE : ℚ := 20

/-! ## Duration formatting (src/bot.py `hms`, lines 68-72) -/

/-- Python's built-in `round`: round half to even. -/
def roundHalfEven (q : ℚ) : ℤ :=
  let f := ⌊q⌋
  let frac := q - f
  if frac < 1/2 then f
  else if 1/2 < frac then f + 1
  else if f % 2 = 0 then f else f + 1

/-- Function `hms(seconds)` from src/bot.py lines 68-72: round to whole seconds,
`divmod` by 3600 and 60 (Python `divmod` = floor division), render hours
only when nonzero. -/
def hms (seconds : ℚ) : String :=
  let total := roundHalfEven seconds
  let h := Int.fdiv total 3600
  let r := Int.fmod total 3600
  let m := Int.fdiv r 60
  let s := Int.fmod r 60
  if h ≠ 0 then s!"{h}h {m}m {s}s" else s!"{m}m {s}s"

/-! ## Primary conversion (spice) -/

structure SpiceResult where
  total_melange : ℚ
  melange_per_player : ℤ
  melange_remainder : ℚ
  total_water : ℚ
  water_per_processor : ℚ
  time_seconds_parallel : ℚ
deriving Repr, DecidableEq

/-- Function `calculate_spice` from src/bot.py lines 74-91.  Raises (`none`) when
`sand <= 0 or players < 1 or processors < 1`. -/
def calculate_spice (sand : ℚ) (players processors : ℤ) : Option SpiceResult :=
  if sand ≤ 0 ∨ players < 1 ∨ processors < 1 then none
  else
    let scale := sand / SAND_PER_BATCH
    let total_melange := MELANGE_PER_BATCH * scale
    let total_water := WATER_PER_BATCH * scale
    let total_seconds_single := SECONDS_PER_BATCH * scale
    let parallel_seconds := total_seconds_single / (processors : ℚ)
    let per_player_floor := ⌊total_melange / (players : ℚ)⌋
    let remainder := total_melange - (per_player_floor : ℚ) * (players : ℚ)
    some {
      total_melange := total_melange
      melange_per_player := per_player_floor
      melange_remainder := remainder
      total_water := total_water
      water_per_processor := total_water / (processors : ℚ)
      time_seconds_parallel := parallel_seconds }

/-- Function `calc_spice` from src/web/app.py lines 43-59.  Never raises: `players`
and `processors` are clamped with `max(1, ...)` instead. -/
def webCalcSpice (sand : ℚ) (players processors : ℤ) : SpiceResult :=
  let scale := sand / SAND_PER_BATCH
  let total_melange := MELANGE_PER_BATCH * scale
  let total_water := WATER_PER_BATCH * scale
  let total_seconds_single := SECONDS_PER_BATCH * scale
  let procs := max 1 processors
  let parallel_seconds := total_seconds_single / (procs : ℚ)
  let per_player_floor := ⌊total_melange / ((max 1 players : ℤ) : ℚ)⌋
  let remainder := total_melange - (per_player_floor : ℚ) * ((max 1 players : ℤ) : ℚ)
  { total_melange := total_melange
    melange_per_player := per_player_floor
    melange_remainder := remainder
    total_water := total_water
    water_per_processor := total_water / (procs : ℚ)
    time_seconds_parallel := parallel_seconds }

/-! ## Fair allocation (the floor/remainder step of src/bot.py lines 82-83,
identical in src/web/app.py lines 50-51) -/

def per_player_floor (total : ℚ) (players : ℤ) : ℤ :=
  ⌊total / (players : ℚ)⌋

def melange_remainder (total : ℚ) (players : ℤ) : ℚ :=
  total - (per_player_floor total players : ℚ) * (players : ℚ)

/-! ## Legacy CLI allocation (src/cmd/spice_calculator.py lines 31-100) -/

/-- Python float `a % b` for a positive modulus `b`:
`a % b = a - b * floor(a / b)`. -/
def pyMod (a b : ℚ) : ℚ := a - b * ⌊a / b⌋

structure LegacySpiceResult where
  water_required : ℚ
  time : ℤ × ℤ × ℤ
  melange_per_player : ℚ
deriving Repr, DecidableEq

/-- Function `calculate_spice_distribution` from
src/cmd/spice_calculator.py lines 31-100.  Raises (`none`) when
`players <= 0` or `spice_sand < 0`.  Its local constants equal the
file-level batch constants (10000.0 / 200.0 / 75000.0 / 2700.0).  Note
`melange_per_player = total_melange / players` — a plain quotient, no
floor and no remainder in the returned record.  The time tuple is
`(int(t // 3600), int((t % 3600) // 60), int(round(t % 60)))`; on the
success branch `spice_sand ≥ 0`, so `t ≥ 0` and Python `int(...)` of the
non-negative floor-divisions is `Int.floor`. -/
def calculate_spice_distribution (spice_sand : ℚ) (players : ℤ) :
    Option LegacySpiceResult :=
  if players ≤ 0 ∨ spice_sand < 0 then none
  else
    let batch_fraction := spice_sand / SAND_PER_BATCH
    let total_melange := batch_fraction * MELANGE_PER_BATCH
    let water_required := batch_fraction * WATER_PER_BATCH
    let total_time_seconds := batch_fraction * SECONDS_PER_BATCH
    let melange_per_player := total_melange / (players : ℚ)
    let hours := ⌊total_time_seconds / 3600⌋
    let minutes := ⌊pyMod total_time_seconds 3600 / 60⌋
    let seconds := roundHalfEven (pyMod total_time_seconds 60)
    some { water_required := water_required
           time := (hours, minutes, seconds)
           melange_per_player := melange_per_player }

/-! ## Stage A: discrete mass→fiber conversion (src/web/app.py lines 61-79) -/

/-- The Landsraad cost factor `cf = 0.75 if landsraad else 1.0`. -/
def costFactor (landsraad : Bool) : ℚ := if landsraad then 3/4 else 1

structure FiberResult where
  fibers : ℤ
  raw_consumed : ℚ
  raw_leftover : ℚ
  water_total : ℚ
  water_per_refinery : ℚ
  time_per_refinery_sec : ℚ
deriving Repr, DecidableEq

/-- Function `compute_fibers` from src/web/app.py lines 61-79.  The Landsraad factor
scales the mass and water per-fiber ratios; `SEC_PER_FIBER` is not scaled. -/
def compute_fibers (strav_mass : ℚ) (chem_refineries : ℤ) (landsraad : Bool) :
    FiberResult :=
  let chem := max 1 chem_refineries
  let cf := costFactor landsraad
  let mass_per_fiber := STRAV_MASS_PER_FIBER * cf
  let water_per_fiber := WATER_PER_FIBER * cf
  let fibers : ℤ := if 0 < mass_per_fiber then ⌊strav_mass / mass_per_fiber⌋ else 0
  let raw_consumed := (fibers : ℚ) * mass_per_fiber
  let raw_leftover := max 0 (strav_mass - raw_consumed)
  let water_total := (fibers : ℚ) * water_per_fiber
  let time_single := (fibers : ℚ) * SEC_PER_FIBER
  { fibers := fibers
    raw_consumed := raw_consumed
    raw_leftover := raw_leftover
    water_total := water_total
    water_per_refinery := water_total / (chem : ℚ)
    time_per_refinery_sec := time_single / (chem : ℚ) }

/-! ## Stage B: fiber+titanium→plastanium (src/web/app.py lines 81-108) -/

structure PlastResult where
  pieces : ℤ
  water_total : ℚ
  water_per_refinery : ℚ
  time_per_refinery_sec : ℚ
  fiber_used : ℚ
  fiber_leftover : ℚ
  titanium_used : ℚ
  titanium_leftover : ℚ
deriving Repr, DecidableEq

/-- Function `compute_plastanium_large` from src/web/app.py lines 81-108.  The
Landsraad factor scales the fiber, titanium and water per-piece ratios;
`SEC_PER_PLASTANIUM_LARGE` is not scaled. -/
def compute_plastanium_large (fibers_avail titanium_ore : ℚ)
    (large_refineries : ℤ) (landsraad : Bool) : PlastResult :=
  let large := max 1 large_refineries
  let cf := costFactor landsraad
  let fiber_per_piece := FIBER_PER_PLASTANIUM * cf
  let ti_per_piece := TI_PER_PLASTANIUM_LARGE * cf
  let water_per_piece := WATER_PER_PLASTANIUM * cf
  let pieces_by_fiber : ℤ :=
    if 0 < fiber_per_piece then ⌊fibers_avail / fiber_per_piece⌋ else 0
  let pieces_by_titanium : ℤ :=
    if 0 < ti_per_piece then ⌊titanium_ore / ti_per_piece⌋ else 0
  let pieces := min pieces_by_fiber pieces_by_titanium
  let fiber_used := (pieces : ℚ) * fiber_per_piece
  let titanium_used := (pieces : ℚ) * ti_per_piece
  let fiber_leftover := max 0 (fibers_avail - fiber_used)
  let titanium_leftover := max 0 (titanium_ore - titanium_used)
  let water_total := (pieces : ℚ) * water_per_piece
  let time_single := (pieces : ℚ) * SEC_PER_PLASTANIUM_LARGE
  { pieces := pieces
    water_total := water_total
    water_per_refinery := water_total / (large : ℚ)
    time_per_refinery_sec := time_single / (large : ℚ)
    fiber_used := fiber_used
    fiber_leftover := fiber_leftover
    titanium_used := titanium_used
    titanium_leftover := titanium_leftover }

/-! ## Run tracker data model (src/bot.py lines 12-39 and 249-531,
src/web/app.py lines 26-34 and 495-572) -/

def RUN_TYPES : List String := ["spice", "plastanium", "stravidium"]
def AMOUNT_FIELDS : List String := ["spice", "plastanium", "stravidium", "titanium"]

/-- The four-channel `amounts` dict of a run. -/
structure Amounts where
  spice : ℚ
  plastanium : ℚ
  stravidium : ℚ
  titanium : ℚ
deriving Repr, DecidableEq

def Amounts.zero : Amounts := ⟨0, 0, 0, 0⟩

def Amounts.get (a : Amounts) (field : String) : ℚ :=
  if field = "spice" then a.spice
  else if field = "plastanium" then a.plastanium
  else if field = "stravidium" then a.stravidium
  else if field = "titanium" then a.titanium
  else 0

def Amounts.set (a : Amounts) (field : String) (v : ℚ) : Amounts :=
  if field = "spice" then { a with spice := v }
  else if field = "plastanium" then { a with plastanium := v }
  else if field = "stravidium" then { a with stravidium := v }
  else if field = "titanium" then { a with titanium := v }
  else a

/-- A stored run.  The web app stores no `created_by` key, hence `Option`:
`run.get("created_by")` is `None` there. -/
structure Run where
  kind : String
  players : List String
  amounts : Amounts
  created_by : Option ℤ
deriving Repr, DecidableEq

/-- The `RUNS` dict: an association list with unique keys. -/
abbrev Store : Type := List (String × Run)

def storeGet : Store → String → Option Run
  | [], _ => none
  | (k, r) :: rest, id => if k = id then some r else storeGet rest id

/-- Dict assignment `RUNS[run_id] = run`. -/
def storeSet (s : Store) (id : String) (r : Run) : Store :=
  (id, r) :: (List.filter (fun p => p.1 ≠ id) s)

/-- Dict deletion `del RUNS[run_id]`. -/
def storeDel (s : Store) (id : String) : Store :=
  List.filter (fun p => p.1 ≠ id) s

/-- Python `str.strip()`: drop leading and trailing whitespace.  (Defined
over the character list so that it evaluates inside the kernel.) -/
def pyStrip (s : String) : String :=
  String.mk (((s.data.dropWhile Char.isWhitespace).reverse.dropWhile
    Char.isWhitespace).reverse)

/-- Python `str.lower()`. -/
def pyLower (s : String) : String :=
  String.mk (s.data.map Char.toLower)

/-- Python `str.split(",")` over the character list: every comma starts a
new (possibly empty) group. -/
def splitOnCommaAux : List Char → List (List Char)
  | [] => [[]]
  | c :: rest =>
    match splitOnCommaAux rest with
    | [] => [[]]
    | grp :: groups => if c = ',' then [] :: grp :: groups else (c :: grp) :: groups

/-- Function `_parse_players_csv` from src/bot.py lines 32-33 (identically
src/web/app.py line 502): split on commas, strip, drop empties. -/
def parsePlayersCsv (csv : String) : List String :=
  ((splitOnCommaAux csv.data).map (fun l => pyStrip (String.mk l))).filter
    (fun p => p ≠ "")

/-- Python `list(dict.fromkeys(...))`: deduplicate keeping the first occurrence,
preserving order (src/bot.py line 249).  A key is appended the first time
it is seen, exactly as `dict.fromkeys` builds its key order. -/
def dedupKeepFirst (l : List String) : List String :=
  l.foldl (fun acc x => if x ∈ acc then acc else acc ++ [x]) []

/-! ## Run lifecycle operations -/

inductive AddPlayerOutcome
  | added
  | duplicate
  | notFound
  | emptyName
deriving Repr, DecidableEq

inductive AddAmountOutcome
  | ok
  | notFound
  | badField
deriving Repr, DecidableEq

inductive DeleteOutcome
  | deleted
  | permissionDenied
  | notFound
deriving Repr, DecidableEq

/-- Command `/run` (`run_start`, src/bot.py lines 243-267): validate the kind,
dedupe the parsed roster, reject an empty roster, then insert a fresh run
with all four accumulators zero and the caller recorded as creator.
`none` = rejected without touching the store. -/
def botRunCreate (s : Store) (run_id : String) (uid : ℤ) (kind csv : String) :
    Option Store :=
  let k := pyStrip (pyLower kind)
  if k ∉ RUN_TYPES then none
  else
    let players := dedupKeepFirst (parsePlayersCsv csv)
    if players = [] then none
    else some (storeSet s run_id
      { kind := k, players := players, amounts := Amounts.zero,
        created_by := some uid })

/-- Route `/run/create` (`run_create`, src/web/app.py lines 495-509): same checks
but the parsed roster is **not** deduplicated and no creator is stored. -/
def webRunCreate (s : Store) (run_id : String) (kind csv : String) :
    Option Store :=
  let k := pyLower (pyStrip kind)
  if k ∉ RUN_TYPES then none
  else
    let players := parsePlayersCsv csv
    if players = [] then none
    else some (storeSet s run_id
      { kind := k, players := players, amounts := Amounts.zero,
        created_by := none })

/-- The `field == "players"` branch of `/run_update` (src/bot.py lines
292-309): a duplicate name is a notification and a no-op. -/
def botAddPlayer (s : Store) (run_id value : String) :
    AddPlayerOutcome × Store :=
  match storeGet s run_id with
  | none => (.notFound, s)
  | some run =>
    let name := pyStrip value
    if name = "" then (.emptyName, s)
    else if name ∈ run.players then (.duplicate, s)
    else (.added, storeSet s run_id { run with players := run.players ++ [name] })

/-- The `field == "players"` branch of `/run/update` (src/web/app.py lines
522-530). -/
def webAddPlayer (s : Store) (run_id value : String) :
    AddPlayerOutcome × Store :=
  match storeGet s run_id with
  | none => (.notFound, s)
  | some run =>
    let name := pyStrip value
    if name = "" then (.emptyName, s)
    else if name ∈ run.players then (.duplicate, s)
    else (.added, storeSet s run_id { run with players := run.players ++ [name] })

/-- The resource branch of `/run_update` (src/bot.py lines 311-327):
`run["amounts"][field] = run["amounts"].get(field, 0.0) + amount`.  The
amount is added with no sign check. -/
def botAddAmount (s : Store) (run_id field0 : String) (amount : ℚ) :
    AddAmountOutcome × Store :=
  match storeGet s run_id with
  | none => (.notFound, s)
  | some run =>
    let field := pyStrip (pyLower field0)
    if field ∈ AMOUNT_FIELDS then
      (.ok, storeSet s run_id
        { run with amounts := run.amounts.set field (run.amounts.get field + amount) })
    else (.badField, s)

/-- The resource branch of `/run/update` (src/web/app.py lines 532-543). -/
def webAddAmount (s : Store) (run_id field0 : String) (amount : ℚ) :
    AddAmountOutcome × Store :=
  match storeGet s run_id with
  | none => (.notFound, s)
  | some run =>
    let field := pyLower (pyStrip field0)
    if field ∈ AMOUNT_FIELDS then
      (.ok, storeSet s run_id
        { run with amounts := run.amounts.set field (run.amounts.get field + amount) })
    else (.badField, s)

/-- Command `/run_delete` (src/bot.py lines 510-531): the requester must be the
creator or hold the Administrator permission; otherwise the request is
refused and the store is untouched. -/
def botRunDelete (s : Store) (run_id : String) (requester : ℤ) (isAdmin : Bool) :
    DeleteOutcome × Store :=
  match storeGet s run_id with
  | none => (.notFound, s)
  | some run =>
    let isCreator := run.created_by = some requester
    if isCreator ∨ isAdmin then (.deleted, storeDel s run_id)
    else (.permissionDenied, s)

/-- Route `/run/delete` (src/web/app.py lines 564-572): no identity and no
permission check — any existing run is deleted. -/
def webRunDelete (s : Store) (run_id : String) : DeleteOutcome × Store :=
  match storeGet s run_id with
  | none => (.notFound, s)
  | some _ => (.deleted, storeDel s run_id)

/-- Store states reachable through the bot's mutating slash commands,
starting from the empty store. -/
inductive BotReachable : Store → Prop
  | init : BotReachable []
  | create (s s' : Store) (id : String) (uid : ℤ) (kind csv : String) :
      BotReachable s → botRunCreate s id uid kind csv = some s' → BotReachable s'
  | addPlayer (s : Store) (id value : String) :
      BotReachable s → BotReachable (botAddPlayer s id value).2
  | addAmount (s : Store) (id field : String) (amt : ℚ) :
      BotReachable s → BotReachable (botAddAmount s id field amt).2
  | del (s : Store) (id : String) (req : ℤ) (adm : Bool) :
      BotReachable s → BotReachable (botRunDelete s id req adm).2

/-- Store states reachable through the web app's mutating routes, starting
from the empty store. -/
inductive WebReachable : Store → Prop
  | init : WebReachable []
  | create (s s' : Store) (id kind csv : String) :
      WebReachable s → webRunCreate s id kind csv = some s' → WebReachable s'
  | addPlayer (s : Store) (id value : String) :
      WebReachable s → WebReachable (webAddPlayer s id value).2
  | addAmount (s : Store) (id field : String) (amt : ℚ) :
      WebReachable s → WebReachable (webAddAmount s id field amt).2
  | del (s : Store) (id : String) :
      WebReachable s → WebReachable (webRunDelete s id).2

/-! ## Concrete sample stores used in witnesses and counterexamples -/

def c7run : Run :=
  { kind := "spice", players := ["Alice"], amounts := Amounts.zero,
    created_by := some 1 }

def c7store : Store := [("ab", c7run)]

def c9run : Run :=
  { kind := "spice", players := ["Alice"], amounts := Amounts.zero,
    created_by := some 1 }

def c9store : Store := [("r1", c9run)]

def c10run : Run :=
  { kind := "spice", players := ["Alice"], amounts := Amounts.zero,
    created_by := some 7 }

def c10store : Store := [("r1", c10run)]

def c10webRun : Run :=
  { kind := "spice", players := ["Alice"], amounts := Amounts.zero,
    created_by := none }

def c10webStore : Store := [("r1", c10webRun)]

def c8run : Run :=
  { kind := "spice", players := ["Alice", "Bob"], amounts := Amounts.zero,
    created_by := some 1 }

def c8store : Store := [("cd", c8run)]

/-- Non-negativity of all four resource accumulators. -/
def AmountsNonneg (a : Amounts) : Prop :=
  0 ≤ a.spice ∧ 0 ≤ a.plastanium ∧ 0 ≤ a.stravidium ∧ 0 ≤ a.titanium

/-! ## Helper lemmas -/

theorem floor_mul_le (x c : ℚ) (hc : 0 < c) : (⌊x / c⌋ : ℚ) * c ≤ x := by
  calc (⌊x / c⌋ : ℚ) * c ≤ (x / c) * c :=
        mul_le_mul_of_nonneg_right (Int.floor_le (x / c)) hc.le
    _ = x := div_mul_cancel₀ x hc.ne'

theorem lt_floor_add_one_mul (x c : ℚ) (hc : 0 < c) :
    x < ((⌊x / c⌋ : ℚ) + 1) * c := by
  have h := Int.lt_floor_add_one (x / c)
  calc x = (x / c) * c := (div_mul_cancel₀ x hc.ne').symm
    _ < ((⌊x / c⌋ : ℚ) + 1) * c := by
        apply mul_lt_mul_of_pos_right _ hc
        exact_mod_cast h

/-! ## Claim C1 -/

/-- C1 counterexample: the claim asserts that for every `raw_qty ≥ 0` the
primary conversion returns the linearly scaled totals, but at
`raw_qty = 0` (with `players = 1`, `unit_count = 1`) `calculate_spice`
raises `ValueError` (`sand <= 0` is rejected) instead of returning. -/
theorem calculate_spice_zero_raises : calculate_spice 0 1 1 = none := by
  norm_num [calculate_spice]

/-- C1 (amended): for every `raw_qty > 0` (zero is rejected by the guard),
`players ≥ 1` and `unit_count ≥ 1`, `calculate_spice` returns
`output_total = raw_qty * (200/10000)`,
`byproduct_total = raw_qty * (75000/10000)` and parallel time
`raw_qty * (2700/10000) / unit_count`, with the byproduct per-unit figure
`byproduct_total / unit_count`; in particular for `raw_qty = 25000`,
`unit_count = 1` it returns `500`, `187500` and `6750` seconds, and
`hms 6750 = "1h 52m 30s"`. -/
theorem calculate_spice_scales_linearly :
    (∀ (sand : ℚ) (players processors : ℤ),
      0 < sand → 1 ≤ players → 1 ≤ processors →
      ∃ r : SpiceResult, calculate_spice sand players processors = some r ∧
        r.total_melange = sand * (MELANGE_PER_BATCH / SAND_PER_BATCH) ∧
        r.total_water = sand * (WATER_PER_BATCH / SAND_PER_BATCH) ∧
        r.time_seconds_parallel =
          sand * (SECONDS_PER_BATCH / SAND_PER_BATCH) / (processors : ℚ) ∧
        r.water_per_processor =
          sand * (WATER_PER_BATCH / SAND_PER_BATCH) / (processors : ℚ)) ∧
    calculate_spice 25000 1 1 =
      some ⟨500, 500, 0, 187500, 187500, 6750⟩ ∧
    hms 6750 = "1h 52m 30s" := by
  refine ⟨?_, ?_, ?_⟩
  · intro sand players processors hs hp hq
    have hcond : ¬(sand ≤ 0 ∨ players < 1 ∨ processors < 1) := by
      push_neg
      exact ⟨hs, hp, hq⟩
    rw [calculate_spice, if_neg hcond]
    refine ⟨_, rfl, ?_, ?_, ?_, ?_⟩ <;>
      simp [MELANGE_PER_BATCH, SAND_PER_BATCH, WATER_PER_BATCH, SECONDS_PER_BATCH] <;>
      ring
  · rw [calculate_spice]
    norm_num [SAND_PER_BATCH, MELANGE_PER_BATCH, WATER_PER_BATCH, SECONDS_PER_BATCH]
  · rw [hms]
    norm_num [roundHalfEven]
    rfl

/-- C1 witness: the amended theorem applied at `sand = 25000`,
`players = 4`, `processors = 2`. -/
theorem calculate_spice_scales_linearly_witness :
    ∃ r : SpiceResult, calculate_spice 25000 4 2 = some r ∧
      r.total_melange = 25000 * (MELANGE_PER_BATCH / SAND_PER_BATCH) ∧
      r.total_water = 25000 * (WATER_PER_BATCH / SAND_PER_BATCH) ∧
      r.time_seconds_parallel =
        25000 * (SECONDS_PER_BATCH / SAND_PER_BATCH) / ((2 : ℤ) : ℚ) ∧
      r.water_per_processor =
        25000 * (WATER_PER_BATCH / SAND_PER_BATCH) / ((2 : ℤ) : ℚ) :=
  calculate_spice_scales_linearly.1 25000 4 2 (by norm_num) (by norm_num)
    (by norm_num)

/-! ## Claim C2 -/

/-- C2 counterexample: the claim asserts that fair allocation floors the
per-player share for every implementation it cites, but the legacy CLI
`calculate_spice_distribution` (src/cmd/spice_calculator.py lines 88-89)
returns the plain quotient `total_melange / players` with no floor and no
remainder: at `spice_sand = 500` (so `total_melange = 10`) and
`players = 3` it returns `melange_per_player = 10/3`, which differs from
`floor(10/3) = 3`. -/
theorem legacy_allocation_does_not_floor :
    calculate_spice_distribution 500 3 =
      some ⟨3750, (0, 2, 15), 10/3⟩ ∧
    (10 : ℚ) / 3 ≠ ((⌊(10 : ℚ) / 3⌋ : ℤ) : ℚ) := by
  constructor
  · rw [calculate_spice_distribution]
    norm_num [SAND_PER_BATCH, MELANGE_PER_BATCH, WATER_PER_BATCH,
      SECONDS_PER_BATCH, pyMod, roundHalfEven]
  · have h3 : (⌊(10 : ℚ) / 3⌋ : ℤ) = 3 := by
      rw [Int.floor_eq_iff]
      norm_num
    rw [h3]
    norm_num

/-- C2 (amended): the floor/remainder allocation of src/bot.py lines 82-83
(identical in src/web/app.py lines 50-51 and in the standalone CLI
src/cmd/spice_calc_cmd.py line 60) floors the per-player share, not the
total: for every `total ≥ 0` and `player_count ≥ 1` it satisfies
`per_player * player_count + remainder = total`, `remainder ≥ 0`, and for
integer totals the remainder is an integer in `[0, player_count)`, with
`allocate(500, 4) = (125, 0)`; the legacy CLI
`calculate_spice_distribution` (src/cmd/spice_calculator.py lines 88-89),
however, does not floor: on every accepted input it returns the exact
unfloored quotient `total_melange / players` and computes no remainder. -/
theorem allocation_floors_per_player_share :
    (∀ (total : ℚ) (players : ℤ), 0 ≤ total → 1 ≤ players →
      (per_player_floor total players : ℚ) * (players : ℚ) +
          melange_remainder total players = total ∧
      0 ≤ melange_remainder total players ∧
      (∀ n : ℕ, total = (n : ℚ) →
        ∃ k : ℤ, melange_remainder total players = (k : ℚ) ∧
          0 ≤ k ∧ k < players)) ∧
    (per_player_floor 500 4 = 125 ∧ melange_remainder 500 4 = 0) ∧
    (∀ (sand : ℚ) (players : ℤ), 0 ≤ sand → 1 ≤ players →
      ∃ r : LegacySpiceResult, calculate_spice_distribution sand players = some r ∧
        r.melange_per_player =
          sand / SAND_PER_BATCH * MELANGE_PER_BATCH / (players : ℚ)) := by
  have h125 : per_player_floor 500 4 = 125 := by
    rw [per_player_floor, Int.floor_eq_iff]
    norm_num
  refine ⟨?_, ⟨h125, by rw [melange_remainder, h125]; norm_num⟩, ?_⟩
  case refine_2 =>
    intro sand players hsand hp
    have hcond : ¬(players ≤ 0 ∨ sand < 0) := by
      push_neg
      exact ⟨by omega, hsand⟩
    rw [calculate_spice_distribution, if_neg hcond]
    exact ⟨_, rfl, rfl⟩
  intro total players htot hp
  have hp0 : (0 : ℚ) < (players : ℚ) := by
    have : (1 : ℚ) ≤ (players : ℚ) := by exact_mod_cast hp
    linarith
  have hfloor : (per_player_floor total players : ℚ) * (players : ℚ) ≤ total := by
    rw [per_player_floor]
    exact floor_mul_le total (players : ℚ) hp0
  have hlt : total - (per_player_floor total players : ℚ) * (players : ℚ) <
      (players : ℚ) := by
    have h := lt_floor_add_one_mul total (players : ℚ) hp0
    rw [per_player_floor]
    nlinarith [h]
  refine ⟨by rw [melange_remainder]; ring, by rw [melange_remainder]; linarith, ?_⟩
  intro n hn
  subst hn
  refine ⟨(n : ℤ) - per_player_floor ((n : ℕ) : ℚ) players * players, ?_, ?_, ?_⟩
  · rw [melange_remainder]
    push_cast
    ring
  · have : (0 : ℚ) ≤ (((n : ℤ) - per_player_floor ((n : ℕ) : ℚ) players * players : ℤ) : ℚ) := by
      push_cast
      linarith
    exact_mod_cast this
  · have : (((n : ℤ) - per_player_floor ((n : ℕ) : ℚ) players * players : ℤ) : ℚ) <
        ((players : ℤ) : ℚ) := by
      push_cast
      linarith
    exact_mod_cast this

/-- C2 witness: the amended theorem's floor clause applied at
`total = 500`, `players = 4` (with the integer-total clause at `n = 500`)
and its legacy clause applied at `spice_sand = 500`, `players = 3`. -/
theorem allocation_floors_per_player_share_witness :
    ((per_player_floor 500 4 : ℚ) * ((4 : ℤ) : ℚ) + melange_remainder 500 4 = 500 ∧
     0 ≤ melange_remainder 500 4 ∧
     (∃ k : ℤ, melange_remainder 500 4 = (k : ℚ) ∧ 0 ≤ k ∧ k < 4)) ∧
    (∃ r : LegacySpiceResult, calculate_spice_distribution 500 3 = some r ∧
      r.melange_per_player =
        500 / SAND_PER_BATCH * MELANGE_PER_BATCH / ((3 : ℤ) : ℚ)) := by
  constructor
  · have h := allocation_floors_per_player_share.1 500 4 (by norm_num) (by norm_num)
    exact ⟨h.1, h.2.1, h.2.2 500 (by norm_num)⟩
  · exact allocation_floors_per_player_share.2.2 500 3 (by norm_num) (by norm_num)

/-! ## Claim C3 -/

/-- C3 counterexample: the claim asserts that a negative `raw_quantity`
fails with `InvalidInput`, but the web calculator `calc_spice` performs no
validation at all: at `sand = -10000`, `players = 1`, `processors = 1` it
succeeds and returns negative totals. -/
theorem web_calc_spice_accepts_negative :
    webCalcSpice (-10000) 1 1 =
      ⟨-200, -200, 0, -75000, -75000, -2700⟩ := by
  rw [webCalcSpice]
  norm_num [SAND_PER_BATCH, MELANGE_PER_BATCH, WATER_PER_BATCH, SECONDS_PER_BATCH]

/-- C3 (amended): input validation differs by front end.  The bot's
`calculate_spice` raises exactly when `raw_quantity ≤ 0` (zero is rejected
too) or `players < 1` or `processors < 1`, and succeeds otherwise; the web
`calc_spice` never rejects: it clamps both counts to a minimum of 1 and
computes even for negative `raw_quantity`.  All conversion functions are
pure, so a rejected call mutates no state. -/
theorem spice_input_validation_amended :
    (∀ (sand : ℚ) (players processors : ℤ),
      calculate_spice sand players processors = none ↔
        (sand ≤ 0 ∨ players < 1 ∨ processors < 1)) ∧
    (∀ (sand : ℚ) (players processors : ℤ),
      webCalcSpice sand players processors =
        webCalcSpice sand (max 1 players) (max 1 processors)) := by
  constructor
  · intro sand players processors
    by_cases h : sand ≤ 0 ∨ players < 1 ∨ processors < 1 <;>
      simp [calculate_spice, h]
  · intro sand players processors
    have hmax : ∀ m : ℤ, max 1 (max 1 m) = max 1 m := by
      intro m
      rw [← max_assoc, max_self]
    simp only [webCalcSpice, hmax]

/-! ## Claim C4 -/

/-- C4: discrete primary conversion conserves the input exactly: for every
`raw_qty ≥ 0` (and either Landsraad setting), `compute_fibers` floors the
quotient by the effective mass-per-fiber ratio, consumes exactly
`output_units * ratio`, and the leftover satisfies
`raw_consumed + raw_leftover = raw_qty` with `0 ≤ raw_leftover < ratio`;
in particular `raw_qty = 100` with ratio 3 gives `33 / 99 / 1`. -/
theorem discrete_conversion_conserves_input :
    (∀ (mass : ℚ) (chem : ℤ) (landsraad : Bool), 0 ≤ mass →
      (compute_fibers mass chem landsraad).fibers =
        ⌊mass / (STRAV_MASS_PER_FIBER * costFactor landsraad)⌋ ∧
      (compute_fibers mass chem landsraad).raw_consumed =
        ((compute_fibers mass chem landsraad).fibers : ℚ) *
          (STRAV_MASS_PER_FIBER * costFactor landsraad) ∧
      (compute_fibers mass chem landsraad).raw_consumed +
        (compute_fibers mass chem landsraad).raw_leftover = mass ∧
      0 ≤ (compute_fibers mass chem landsraad).raw_leftover ∧
      (compute_fibers mass chem landsraad).raw_leftover <
        STRAV_MASS_PER_FIBER * costFactor landsraad) ∧
    compute_fibers 100 1 false = ⟨33, 99, 1, 3300, 3300, 330⟩ := by
  constructor
  · intro mass chem landsraad hm
    have hmpf : (0 : ℚ) < STRAV_MASS_PER_FIBER * costFactor landsraad := by
      cases landsraad <;> norm_num [STRAV_MASS_PER_FIBER, costFactor]
    have hcons : (⌊mass / (STRAV_MASS_PER_FIBER * costFactor landsraad)⌋ : ℚ) *
        (STRAV_MASS_PER_FIBER * costFactor landsraad) ≤ mass :=
      floor_mul_le mass _ hmpf
    have hbig : mass < ((⌊mass / (STRAV_MASS_PER_FIBER * costFactor landsraad)⌋ : ℚ) + 1) *
        (STRAV_MASS_PER_FIBER * costFactor landsraad) :=
      lt_floor_add_one_mul mass _ hmpf
    rw [compute_fibers]
    simp only [if_pos hmpf, true_and]
    refine ⟨?_, ?_, ?_⟩
    · rw [max_eq_right (by linarith)]
      ring
    · exact le_max_left 0 _
    · apply max_lt hmpf
      nlinarith
  · rw [compute_fibers]
    norm_num [STRAV_MASS_PER_FIBER, WATER_PER_FIBER, SEC_PER_FIBER, costFactor]

/-- C4 witness: the theorem applied at `mass = 100`, `chem = 1`,
`landsraad = false`. -/
theorem discrete_conversion_conserves_input_witness :
    (compute_fibers 100 1 false).fibers =
      ⌊(100 : ℚ) / (STRAV_MASS_PER_FIBER * costFactor false)⌋ ∧
    (compute_fibers 100 1 false).raw_consumed =
      ((compute_fibers 100 1 false).fibers : ℚ) *
        (STRAV_MASS_PER_FIBER * costFactor false) ∧
    (compute_fibers 100 1 false).raw_consumed +
      (compute_fibers 100 1 false).raw_leftover = 100 ∧
    0 ≤ (compute_fibers 100 1 false).raw_leftover ∧
    (compute_fibers 100 1 false).raw_leftover <
      STRAV_MASS_PER_FIBER * costFactor false :=
  discrete_conversion_conserves_input.1 100 1 false (by norm_num)

/-! ## Claim C5 -/

/-- C5: secondary conversion is bounded by the scarcer input with exact
leftover accounting: for every `feed_a ≥ 0`, `feed_b ≥ 0` (and either
Landsraad setting), `compute_plastanium_large` produces
`min(floor(feed_a / ratio_a), floor(feed_b / ratio_b))` pieces with each
feed's usage `pieces * ratio ≤ feed` and exact non-negative leftovers; in
particular `feed_a = 40` (ratio 1), `feed_b = 100` (ratio 4) gives 25
pieces, usage 25/100 and leftovers 15/0. -/
theorem secondary_conversion_min_bound :
    (∀ (a b : ℚ) (large : ℤ) (landsraad : Bool), 0 ≤ a → 0 ≤ b →
      (compute_plastanium_large a b large landsraad).pieces =
        min ⌊a / (FIBER_PER_PLASTANIUM * costFactor landsraad)⌋
            ⌊b / (TI_PER_PLASTANIUM_LARGE * costFactor landsraad)⌋ ∧
      (compute_plastanium_large a b large landsraad).fiber_used =
        ((compute_plastanium_large a b large landsraad).pieces : ℚ) *
          (FIBER_PER_PLASTANIUM * costFactor landsraad) ∧
      (compute_plastanium_large a b large landsraad).fiber_used ≤ a ∧
      (compute_plastanium_large a b large landsraad).fiber_leftover =
        a - (compute_plastanium_large a b large landsraad).fiber_used ∧
      0 ≤ (compute_plastanium_large a b large landsraad).fiber_leftover ∧
      (compute_plastanium_large a b large landsraad).titanium_used =
        ((compute_plastanium_large a b large landsraad).pieces : ℚ) *
          (TI_PER_PLASTANIUM_LARGE * costFactor landsraad) ∧
      (compute_plastanium_large a b large landsraad).titanium_used ≤ b ∧
      (compute_plastanium_large a b large landsraad).titanium_leftover =
        b - (compute_plastanium_large a b large landsraad).titanium_used ∧
      0 ≤ (compute_plastanium_large a b large landsraad).titanium_leftover) ∧
    compute_plastanium_large 40 100 1 false =
      ⟨25, 31250, 31250, 500, 25, 15, 100, 0⟩ := by
  constructor
  · intro a b large landsraad ha hb
    have hra : (0 : ℚ) < FIBER_PER_PLASTANIUM * costFactor landsraad := by
      cases landsraad <;> norm_num [FIBER_PER_PLASTANIUM, costFactor]
    have hrb : (0 : ℚ) < TI_PER_PLASTANIUM_LARGE * costFactor landsraad := by
      cases landsraad <;> norm_num [TI_PER_PLASTANIUM_LARGE, costFactor]
    have hfa : (⌊a / (FIBER_PER_PLASTANIUM * costFactor landsraad)⌋ : ℚ) *
        (FIBER_PER_PLASTANIUM * costFactor landsraad) ≤ a :=
      floor_mul_le a _ hra
    have hfb : (⌊b / (TI_PER_PLASTANIUM_LARGE * costFactor landsraad)⌋ : ℚ) *
        (TI_PER_PLASTANIUM_LARGE * costFactor landsraad) ≤ b :=
      floor_mul_le b _ hrb
    have hminA : ((min ⌊a / (FIBER_PER_PLASTANIUM * costFactor landsraad)⌋
        ⌊b / (TI_PER_PLASTANIUM_LARGE * costFactor landsraad)⌋ : ℤ) : ℚ) ≤
        (⌊a / (FIBER_PER_PLASTANIUM * costFactor landsraad)⌋ : ℚ) := by
      exact_mod_cast min_le_left _ _
    have hminB : ((min ⌊a / (FIBER_PER_PLASTANIUM * costFactor landsraad)⌋
        ⌊b / (TI_PER_PLASTANIUM_LARGE * costFactor landsraad)⌋ : ℤ) : ℚ) ≤
        (⌊b / (TI_PER_PLASTANIUM_LARGE * costFactor landsraad)⌋ : ℚ) := by
      exact_mod_cast min_le_right _ _
    have husedA : ((min ⌊a / (FIBER_PER_PLASTANIUM * costFactor landsraad)⌋
        ⌊b / (TI_PER_PLASTANIUM_LARGE * costFactor landsraad)⌋ : ℤ) : ℚ) *
        (FIBER_PER_PLASTANIUM * costFactor landsraad) ≤ a := by
      calc _ ≤ (⌊a / (FIBER_PER_PLASTANIUM * costFactor landsraad)⌋ : ℚ) *
            (FIBER_PER_PLASTANIUM * costFactor landsraad) :=
              mul_le_mul_of_nonneg_right hminA hra.le
        _ ≤ a := hfa
    have husedB : ((min ⌊a / (FIBER_PER_PLASTANIUM * costFactor landsraad)⌋
        ⌊b / (TI_PER_PLASTANIUM_LARGE * costFactor landsraad)⌋ : ℤ) : ℚ) *
        (TI_PER_PLASTANIUM_LARGE * costFactor landsraad) ≤ b := by
      calc _ ≤ (⌊b / (TI_PER_PLASTANIUM_LARGE * costFactor landsraad)⌋ : ℚ) *
            (TI_PER_PLASTANIUM_LARGE * costFactor landsraad) :=
              mul_le_mul_of_nonneg_right hminB hrb.le
        _ ≤ b := hfb
    rw [compute_plastanium_large]
    simp only [if_pos hra, if_pos hrb, true_and]
    refine ⟨?_, ?_, ?_, ?_, ?_, ?_⟩
    · exact_mod_cast husedA
    · rw [max_eq_right (by push_cast; push_cast at husedA; linarith)]
    · exact le_max_left 0 _
    · exact_mod_cast husedB
    · rw [max_eq_right (by push_cast; push_cast at husedB; linarith)]
    · exact le_max_left 0 _
  · rw [compute_plastanium_large]
    norm_num [FIBER_PER_PLASTANIUM, TI_PER_PLASTANIUM_LARGE, WATER_PER_PLASTANIUM,
      SEC_PER_PLASTANIUM_LARGE, costFactor]

/-- C5 witness: the theorem applied at `feed_a = 40`, `feed_b = 100`,
`large = 1`, `landsraad = false`. -/
theorem secondary_conversion_min_bound_witness :
    (compute_plastanium_large 40 100 1 false).pieces =
      min ⌊(40 : ℚ) / (FIBER_PER_PLASTANIUM * costFactor false)⌋
          ⌊(100 : ℚ) / (TI_PER_PLASTANIUM_LARGE * costFactor false)⌋ ∧
    (compute_plastanium_large 40 100 1 false).fiber_used =
      ((compute_plastanium_large 40 100 1 false).pieces : ℚ) *
        (FIBER_PER_PLASTANIUM * costFactor false) ∧
    (compute_plastanium_large 40 100 1 false).fiber_used ≤ 40 ∧
    (compute_plastanium_large 40 100 1 false).fiber_leftover =
      40 - (compute_plastanium_large 40 100 1 false).fiber_used ∧
    0 ≤ (compute_plastanium_large 40 100 1 false).fiber_leftover ∧
    (compute_plastanium_large 40 100 1 false).titanium_used =
      ((compute_plastanium_large 40 100 1 false).pieces : ℚ) *
        (TI_PER_PLASTANIUM_LARGE * costFactor false) ∧
    (compute_plastanium_large 40 100 1 false).titanium_used ≤ 100 ∧
    (compute_plastanium_large 40 100 1 false).titanium_leftover =
      100 - (compute_plastanium_large 40 100 1 false).titanium_used ∧
    0 ≤ (compute_plastanium_large 40 100 1 false).titanium_leftover :=
  secondary_conversion_min_bound.1 40 100 1 false (by norm_num) (by norm_num)

/-! ## Claim C6 -/

/-- C6: with the Landsraad −25% multiplier on (`cf = 3/4`), the input and
byproduct per-unit ratios are scaled by `3/4` before the floor division,
but the per-output time constants (`SEC_PER_FIBER`, or respectively
`SEC_PER_PLASTANIUM_LARGE`) are not scaled: the per-unit time equals
`output_units_with_multiplier * unscaled_seconds / unit_count`. -/
theorem landsraad_scales_ratios_not_time :
    (∀ (mass : ℚ) (chem : ℤ), 1 ≤ chem →
      (compute_fibers mass chem true).fibers =
        ⌊mass / (STRAV_MASS_PER_FIBER * (3/4))⌋ ∧
      (compute_fibers mass chem true).water_total =
        ((compute_fibers mass chem true).fibers : ℚ) * (WATER_PER_FIBER * (3/4)) ∧
      (compute_fibers mass chem true).time_per_refinery_sec =
        ((compute_fibers mass chem true).fibers : ℚ) * SEC_PER_FIBER / (chem : ℚ)) ∧
    (∀ (a b : ℚ) (large : ℤ), 1 ≤ large →
      (compute_plastanium_large a b large true).pieces =
        min ⌊a / (FIBER_PER_PLASTANIUM * (3/4))⌋
            ⌊b / (TI_PER_PLASTANIUM_LARGE * (3/4))⌋ ∧
      (compute_plastanium_large a b large true).water_total =
        ((compute_plastanium_large a b large true).pieces : ℚ) *
          (WATER_PER_PLASTANIUM * (3/4)) ∧
      (compute_plastanium_large a b large true).time_per_refinery_sec =
        ((compute_plastanium_large a b large true).pieces : ℚ) *
          SEC_PER_PLASTANIUM_LARGE / (large : ℚ)) := by
  constructor
  · intro mass chem hc
    have hmax : max 1 chem = chem := max_eq_right hc
    rw [compute_fibers]
    norm_num [costFactor, STRAV_MASS_PER_FIBER, WATER_PER_FIBER, SEC_PER_FIBER, hmax]
  · intro a b large hl
    have hmax : max 1 large = large := max_eq_right hl
    rw [compute_plastanium_large]
    norm_num [costFactor, FIBER_PER_PLASTANIUM, TI_PER_PLASTANIUM_LARGE,
      WATER_PER_PLASTANIUM, SEC_PER_PLASTANIUM_LARGE, hmax]

/-- C6 witness: the theorem applied at `mass = 100`, `chem = 2` and at
`feed_a = 40`, `feed_b = 100`, `large = 2`. -/
theorem landsraad_scales_ratios_not_time_witness :
    ((compute_fibers 100 2 true).fibers =
        ⌊(100 : ℚ) / (STRAV_MASS_PER_FIBER * (3/4))⌋ ∧
      (compute_fibers 100 2 true).water_total =
        ((compute_fibers 100 2 true).fibers : ℚ) * (WATER_PER_FIBER * (3/4)) ∧
      (compute_fibers 100 2 true).time_per_refinery_sec =
        ((compute_fibers 100 2 true).fibers : ℚ) * SEC_PER_FIBER / ((2 : ℤ) : ℚ)) ∧
    ((compute_plastanium_large 40 100 2 true).pieces =
        min ⌊(40 : ℚ) / (FIBER_PER_PLASTANIUM * (3/4))⌋
            ⌊(100 : ℚ) / (TI_PER_PLASTANIUM_LARGE * (3/4))⌋ ∧
      (compute_plastanium_large 40 100 2 true).water_total =
        ((compute_plastanium_large 40 100 2 true).pieces : ℚ) *
          (WATER_PER_PLASTANIUM * (3/4)) ∧
      (compute_plastanium_large 40 100 2 true).time_per_refinery_sec =
        ((compute_plastanium_large 40 100 2 true).pieces : ℚ) *
          SEC_PER_PLASTANIUM_LARGE / ((2 : ℤ) : ℚ)) :=
  ⟨landsraad_scales_ratios_not_time.1 100 2 (by norm_num),
   landsraad_scales_ratios_not_time.2 40 100 2 (by norm_num)⟩

/-! ## Store helper lemmas -/

theorem dedup_foldl_nodup : ∀ (l acc : List String), acc.Nodup →
    (l.foldl (fun acc x => if x ∈ acc then acc else acc ++ [x]) acc).Nodup := by
  intro l
  induction l with
  | nil =>
    intro acc h
    exact h
  | cons x xs ih =>
    intro acc h
    rw [List.foldl_cons]
    by_cases hx : x ∈ acc
    · rw [if_pos hx]
      exact ih acc h
    · rw [if_neg hx]
      apply ih
      rw [← List.concat_eq_append]
      exact h.concat hx

theorem nodup_dedupKeepFirst (l : List String) : (dedupKeepFirst l).Nodup :=
  dedup_foldl_nodup l [] List.nodup_nil

theorem storeGet_mem : ∀ {s : Store} {id : String} {r : Run},
    storeGet s id = some r → (id, r) ∈ s := by
  intro s
  induction s with
  | nil =>
    intro id r h
    simp [storeGet] at h
  | cons p rest ih =>
    intro id r h
    rw [storeGet] at h
    split at h
    · rename_i heq
      cases h
      rw [← heq]
      exact List.mem_cons_self _ _
    · exact List.mem_cons_of_mem _ (ih h)

theorem mem_storeSet {s : Store} {id : String} {r : Run} {p : String × Run}
    (h : p ∈ storeSet s id r) : p = (id, r) ∨ p ∈ s := by
  rcases List.mem_cons.1 h with h1 | h2
  · exact Or.inl h1
  · exact Or.inr (List.mem_of_mem_filter h2)

theorem storeGet_storeSet_self (s : Store) (id : String) (r : Run) :
    storeGet (storeSet s id r) id = some r := by
  simp [storeSet, storeGet]

theorem storeGet_storeDel_self (s : Store) (id : String) :
    storeGet (storeDel s id) id = none := by
  rw [storeDel]
  induction s with
  | nil => rfl
  | cons p rest ih =>
    rw [List.filter]
    by_cases hp : p.1 = id
    · simp only [hp, ne_eq, not_true_eq_false, decide_False]
      exact ih
    · simp only [ne_eq, hp, not_false_eq_true, decide_True]
      rw [storeGet, if_neg hp]
      exact ih

/-- Adding a non-negative amount to one of the four accumulators keeps all
of them non-negative. -/
theorem amountsNonneg_set_add {a : Amounts} {field : String} {amt : ℚ}
    (ha : AmountsNonneg a) (h : 0 ≤ amt) :
    AmountsNonneg (a.set field (a.get field + amt)) := by
  obtain ⟨h1, h2, h3, h4⟩ := ha
  unfold AmountsNonneg Amounts.set Amounts.get
  split_ifs
  · exact ⟨add_nonneg h1 h, h2, h3, h4⟩
  · exact ⟨h1, add_nonneg h2 h, h3, h4⟩
  · exact ⟨h1, h2, add_nonneg h3 h, h4⟩
  · exact ⟨h1, h2, h3, add_nonneg h4 h⟩
  · exact ⟨h1, h2, h3, h4⟩

/-! ## Claim C7 -/

/-- C7 counterexample: the claim asserts every Delete by a non-creator,
non-admin identity fails and leaves the run present, but the web route
`run_delete` performs no permission check at all: on a store holding a run
created by user 1, the (anonymous, hence non-creator and non-admin) web
request deletes it and the run is gone afterward. -/
theorem web_delete_ignores_permissions :
    c7run.created_by = some 1 ∧
    (webRunDelete c7store "ab").1 = DeleteOutcome.deleted ∧
    storeGet (webRunDelete c7store "ab").2 "ab" = none := by
  refine ⟨rfl, ?_, ?_⟩ <;>
    simp [webRunDelete, c7store, c7run, storeGet, storeDel]

/-- C7 (amended): the Discord bot's `run_delete` enforces the rule — for
every store, stored run and requester that is not the creator and not an
administrator, it answers `PermissionDenied` and leaves the store (hence
the run) unchanged; the web app's `run_delete` checks nothing and deletes
any existing run. -/
theorem delete_permission_amended :
    (∀ (s : Store) (id : String) (run : Run) (req : ℤ),
      storeGet s id = some run → run.created_by ≠ some req →
      botRunDelete s id req false = (DeleteOutcome.permissionDenied, s)) ∧
    (∀ (s : Store) (id : String) (run : Run),
      storeGet s id = some run →
      (webRunDelete s id).1 = DeleteOutcome.deleted ∧
      storeGet (webRunDelete s id).2 id = none) := by
  constructor
  · intro s id run req hget hne
    rw [botRunDelete, hget]
    simp [hne]
  · intro s id run hget
    rw [webRunDelete, hget]
    exact ⟨rfl, storeGet_storeDel_self s id⟩

/-- C7 witness: the amended theorem applied to the one-run store
`c7store` (run created by user 1) with requester 2. -/
theorem delete_permission_amended_witness :
    botRunDelete c7store "ab" 2 false = (DeleteOutcome.permissionDenied, c7store) ∧
    ((webRunDelete c7store "ab").1 = DeleteOutcome.deleted ∧
      storeGet (webRunDelete c7store "ab").2 "ab" = none) :=
  ⟨delete_permission_amended.1 c7store "ab" c7run 2 (by rfl) (by simp [c7run]),
   delete_permission_amended.2 c7store "ab" c7run (by rfl)⟩

/-! ## Claim C8 -/

/-- C8 counterexample: the claim asserts that Create produces a
duplicate-free roster, but the web route `run_create` does not deduplicate
its parsed player list: creating a run from the CSV `"Alice,Alice"` stores
the roster `["Alice", "Alice"]`, which has a duplicate. -/
theorem web_create_keeps_duplicates :
    webRunCreate [] "r1" "spice" "Alice,Alice" =
      some [("r1", { kind := "spice", players := ["Alice", "Alice"],
                     amounts := Amounts.zero, created_by := none })] ∧
    ¬ (["Alice", "Alice"] : List String).Nodup := by
  constructor
  · rfl
  · simp

/-- C8 (amended): in the Discord bot every reachable store has
duplicate-free rosters (Create deduplicates keeping first occurrences, and
AddPlayer refuses duplicates), and in both front ends AddPlayer with a name
already on the roster is a soft notification that leaves the store
completely unchanged; the web Create, however, stores its parsed list
without deduplication (see the counterexample). -/
theorem roster_uniqueness_amended :
    (∀ s : Store, BotReachable s → ∀ p ∈ s, p.2.players.Nodup) ∧
    (∀ (s : Store) (id value : String) (run : Run),
      storeGet s id = some run → pyStrip value ≠ "" → pyStrip value ∈ run.players →
      botAddPlayer s id value = (AddPlayerOutcome.duplicate, s) ∧
      webAddPlayer s id value = (AddPlayerOutcome.duplicate, s)) := by
  constructor
  · intro s hs
    induction hs with
    | init =>
      intro p hp
      simp at hp
    | create s s' id uid kind csv hr hc ih =>
      simp only [botRunCreate] at hc
      split_ifs at hc with h1 h2
      injection hc with hc2
      subst hc2
      intro p hp
      rcases mem_storeSet hp with rfl | hmem
      · exact nodup_dedupKeepFirst _
      · exact ih p hmem
    | addPlayer s id value hr ih =>
      rw [botAddPlayer]
      cases hget : storeGet s id with
      | none =>
        simp only
        exact ih
      | some run =>
        simp only
        split_ifs with h1 h2
        · exact ih
        · exact ih
        · intro p hp
          rcases mem_storeSet hp with rfl | hmem
          · have hnd : run.players.Nodup := ih _ (storeGet_mem hget)
            rw [← List.concat_eq_append]
            exact List.Nodup.concat h2 hnd
          · exact ih p hmem
    | addAmount s id field amt hr ih =>
      rw [botAddAmount]
      cases hget : storeGet s id with
      | none =>
        simp only
        exact ih
      | some run =>
        simp only
        split_ifs with h1
        · intro p hp
          rcases mem_storeSet hp with rfl | hmem
          · exact ih (id, run) (storeGet_mem hget)
          · exact ih p hmem
        · exact ih
    | del s id req adm hr ih =>
      rw [botRunDelete]
      cases hget : storeGet s id with
      | none =>
        simp only
        exact ih
      | some run =>
        simp only
        split_ifs with h1
        · intro p hp
          exact ih p (List.mem_of_mem_filter hp)
        · exact ih
  · intro s id value run hget hne hmem
    constructor
    · rw [botAddPlayer, hget]
      simp [hne, hmem]
    · rw [webAddPlayer, hget]
      simp [hne, hmem]

/-- C8 witness: the amended theorem applied to the reachable one-run store
created from the CSV `"Alice,Alice"` (deduplicated by the bot), and to a
duplicate AddPlayer on the concrete store `c8store`. -/
theorem roster_uniqueness_amended_witness :
    c8run.players.Nodup ∧
    (botAddPlayer c8store "cd" " Bob " = (AddPlayerOutcome.duplicate, c8store) ∧
     webAddPlayer c8store "cd" " Bob " = (AddPlayerOutcome.duplicate, c8store)) := by
  constructor
  · exact roster_uniqueness_amended.1 c8store
      (BotReachable.create [] c8store "cd" 1 "spice" "Alice,Bob,Alice"
        BotReachable.init (by rfl))
      ("cd", c8run) (by simp [c8store])
  · exact roster_uniqueness_amended.2 c8store "cd" " Bob " c8run (by rfl)
      (by decide) (by decide)

/-! ## Claim C9 -/

/-- C9 counterexample: the claim asserts accumulators are non-negative in
every reachable store state, but AddAmount performs an unchecked signed
addition: starting from a freshly created run (all accumulators zero),
`run_update` with `field = "spice"`, `amount = -5` reaches a store whose
spice accumulator is `-5 < 0`. -/
theorem negative_amount_breaks_nonneg :
    BotReachable (botAddAmount c9store "r1" "spice" (-5)).2 ∧
    (storeGet (botAddAmount c9store "r1" "spice" (-5)).2 "r1").map
      (fun r => r.amounts.spice) = some (-5) ∧
    ((-5 : ℚ) < 0) := by
  refine ⟨?_, ?_, by norm_num⟩
  · exact BotReachable.addAmount c9store "r1" "spice" (-5)
      (BotReachable.create [] c9store "r1" 1 "spice" "Alice"
        BotReachable.init (by rfl))
  · have hstep : (botAddAmount c9store "r1" "spice" (-5)).2 =
        storeSet c9store "r1" { c9run with amounts := c9run.amounts.set "spice" (c9run.amounts.get "spice" + (-5)) } :=
      rfl
    rw [hstep, storeGet_storeSet_self]
    simp [c9run, Amounts.set, Amounts.get, Amounts.zero]

/-- C9 (amended): Create initialises all four accumulators to zero, and
AddAmount with a non-negative amount preserves non-negativity of every
accumulator of every stored run (in both the bot and the web app); but the
addition is unchecked, so a negative amount can drive an accumulator below
zero (see the counterexample). -/
theorem accumulators_nonneg_amended :
    (∀ (s : Store) (id : String) (uid : ℤ) (kind csv : String) (s' : Store),
      botRunCreate s id uid kind csv = some s' →
      ∃ run, storeGet s' id = some run ∧ run.amounts = Amounts.zero) ∧
    (∀ (s : Store) (id field : String) (amt : ℚ), 0 ≤ amt →
      (∀ p ∈ s, AmountsNonneg p.2.amounts) →
      ∀ p ∈ (botAddAmount s id field amt).2, AmountsNonneg p.2.amounts) ∧
    (∀ (s : Store) (id field : String) (amt : ℚ), 0 ≤ amt →
      (∀ p ∈ s, AmountsNonneg p.2.amounts) →
      ∀ p ∈ (webAddAmount s id field amt).2, AmountsNonneg p.2.amounts) := by
  refine ⟨?_, ?_, ?_⟩
  · intro s id uid kind csv s' hc
    simp only [botRunCreate] at hc
    split_ifs at hc with h1 h2
    injection hc with hc2
    subst hc2
    exact ⟨_, storeGet_storeSet_self _ _ _, rfl⟩
  · intro s id field amt hamt hs
    rw [botAddAmount]
    cases hget : storeGet s id with
    | none =>
      simp only
      exact hs
    | some run =>
      simp only
      split_ifs with h1
      · intro p hp
        rcases mem_storeSet hp with rfl | hmem
        · exact amountsNonneg_set_add (hs (id, run) (storeGet_mem hget)) hamt
        · exact hs p hmem
      · exact hs
  · intro s id field amt hamt hs
    rw [webAddAmount]
    cases hget : storeGet s id with
    | none =>
      simp only
      exact hs
    | some run =>
      simp only
      split_ifs with h1
      · intro p hp
        rcases mem_storeSet hp with rfl | hmem
        · exact amountsNonneg_set_add (hs (id, run) (storeGet_mem hget)) hamt
        · exact hs p hmem
      · exact hs

/-- C9 witness: the amended theorem applied to the concrete store
`c9store` — the create clause at its creating call, and both AddAmount
clauses with amount `5 ≥ 0` at the stored pair. -/
theorem accumulators_nonneg_amended_witness :
    (∃ run, storeGet c9store "r1" = some run ∧ run.amounts = Amounts.zero) ∧
    AmountsNonneg ({ c9run with amounts := c9run.amounts.set "spice" (c9run.amounts.get "spice" + 5) } : Run).amounts ∧
    AmountsNonneg ({ c9run with amounts := c9run.amounts.set "spice" (c9run.amounts.get "spice" + 5) } : Run).amounts := by
  refine ⟨?_, ?_, ?_⟩
  · exact accumulators_nonneg_amended.1 [] "r1" 1 "spice" "Alice" c9store (by rfl)
  · exact accumulators_nonneg_amended.2.1 c9store "r1" "spice" 5 (by norm_num)
      (by intro p hp; simp [c9store] at hp; subst hp; exact ⟨le_refl 0, le_refl 0, le_refl 0, le_refl 0⟩)
      ("r1", { c9run with amounts := c9run.amounts.set "spice" (c9run.amounts.get "spice" + 5) })
      (by exact List.mem_cons_self _ _)
  · exact accumulators_nonneg_amended.2.2 c9store "r1" "spice" 5 (by norm_num)
      (by intro p hp; simp [c9store] at hp; subst hp; exact ⟨le_refl 0, le_refl 0, le_refl 0, le_refl 0⟩)
      ("r1", { c9run with amounts := c9run.amounts.set "spice" (c9run.amounts.get "spice" + 5) })
      (by exact List.mem_cons_self _ _)

/-! ## Claim C10 -/

/-- C10: every stored run has a non-empty roster.  In both the bot and the
web app, every reachable store state contains only runs with at least one
player (Create rejects an empty parsed player list before inserting, and
no operation removes a player), so the `len(players)` divisors used by
Calculate are never zero; moreover both Create endpoints reject a CSV that
parses to an empty list. -/
theorem rosters_nonempty_invariant :
    (∀ s : Store, BotReachable s → ∀ p ∈ s, 0 < p.2.players.length) ∧
    (∀ s : Store, WebReachable s → ∀ p ∈ s, 0 < p.2.players.length) ∧
    (∀ (s : Store) (id kind csv : String) (uid : ℤ), parsePlayersCsv csv = [] →
      botRunCreate s id uid kind csv = none ∧
      webRunCreate s id kind csv = none) := by
  refine ⟨?_, ?_, ?_⟩
  · intro s hs
    induction hs with
    | init =>
      intro p hp
      simp at hp
    | create s s' id uid kind csv hr hc ih =>
      simp only [botRunCreate] at hc
      split_ifs at hc with h1 h2
      injection hc with hc2
      subst hc2
      intro p hp
      rcases mem_storeSet hp with rfl | hmem
      · exact List.length_pos.mpr h2
      · exact ih p hmem
    | addPlayer s id value hr ih =>
      rw [botAddPlayer]
      cases hget : storeGet s id with
      | none =>
        simp only
        exact ih
      | some run =>
        simp only
        split_ifs with h1 h2
        · exact ih
        · exact ih
        · intro p hp
          rcases mem_storeSet hp with rfl | hmem
          · simp
          · exact ih p hmem
    | addAmount s id field amt hr ih =>
      rw [botAddAmount]
      cases hget : storeGet s id with
      | none =>
        simp only
        exact ih
      | some run =>
        simp only
        split_ifs with h1
        · intro p hp
          rcases mem_storeSet hp with rfl | hmem
          · exact ih (id, run) (storeGet_mem hget)
          · exact ih p hmem
        · exact ih
    | del s id req adm hr ih =>
      rw [botRunDelete]
      cases hget : storeGet s id with
      | none =>
        simp only
        exact ih
      | some run =>
        simp only
        split_ifs with h1
        · intro p hp
          exact ih p (List.mem_of_mem_filter hp)
        · exact ih
  · intro s hs
    induction hs with
    | init =>
      intro p hp
      simp at hp
    | create s s' id kind csv hr hc ih =>
      simp only [webRunCreate] at hc
      split_ifs at hc with h1 h2
      injection hc with hc2
      subst hc2
      intro p hp
      rcases mem_storeSet hp with rfl | hmem
      · exact List.length_pos.mpr h2
      · exact ih p hmem
    | addPlayer s id value hr ih =>
      rw [webAddPlayer]
      cases hget : storeGet s id with
      | none =>
        simp only
        exact ih
      | some run =>
        simp only
        split_ifs with h1 h2
        · exact ih
        · exact ih
        · intro p hp
          rcases mem_storeSet hp with rfl | hmem
          · simp
          · exact ih p hmem
    | addAmount s id field amt hr ih =>
      rw [webAddAmount]
      cases hget : storeGet s id with
      | none =>
        simp only
        exact ih
      | some run =>
        simp only
        split_ifs with h1
        · intro p hp
          rcases mem_storeSet hp with rfl | hmem
          · exact ih (id, run) (storeGet_mem hget)
          · exact ih p hmem
        · exact ih
    | del s id hr ih =>
      rw [webRunDelete]
      cases hget : storeGet s id with
      | none =>
        simp only
        exact ih
      | some run =>
        simp only
        intro p hp
        exact ih p (List.mem_of_mem_filter hp)
  · intro s id kind csv uid hparse
    constructor <;>
      simp [botRunCreate, webRunCreate, hparse, dedupKeepFirst]

/-- C10 witness: the invariant applied to the concrete reachable stores
`c10store` (bot) and `c10webStore` (web), and the rejection clause at the
empty CSV. -/
theorem rosters_nonempty_invariant_witness :
    0 < c10run.players.length ∧ 0 < c10webRun.players.length ∧
    (botRunCreate [] "r2" 7 "spice" "" = none ∧
     webRunCreate [] "r2" "spice" "" = none) := by
  refine ⟨?_, ?_, ?_⟩
  · exact rosters_nonempty_invariant.1 c10store
      (BotReachable.create [] c10store "r1" 7 "spice" "Alice"
        BotReachable.init (by rfl))
      ("r1", c10run) (by simp [c10store])
  · exact rosters_nonempty_invariant.2.1 c10webStore
      (WebReachable.create [] c10webStore "r1" "spice" "Alice"
        WebReachable.init (by rfl))
      ("r1", c10webRun) (by simp [c10webStore])
  · exact rosters_nonempty_invariant.2.2 [] "r2" "spice" "" 7 (by rfl)

end DASC
